import Mathlib

/-!
Verification of the model lifecycle and feedback-loop subsystem of the
meme-harvester repository, as implemented in src/python/train_classifier.py
and src/python/feedback_server.py.

The Python code is shallowly embedded: pure decision logic becomes Lean
functions over rationals and strings, filesystem effects become explicit
state passing over a small path/file-content model, and external primitives
(the SHA-256 hex digest, the scikit-learn cross-validation call) are
abstracted as function parameters.  Python floats are modelled as rationals;
all decision thresholds in the code are exact at the values of interest.
-/

/-! ### Filesystem model for model persistence

Models the paths touched by train_classifier.py when persisting a model:
the model binary at the output path, its metadata sibling
(output_path.with_suffix(".meta.json")), and the timestamped archive copies
archive/{stem}_{timestamp}{suffix} and archive/{stem}_{timestamp}.meta.json.
These four path families are pairwise distinct concrete paths in the code,
which the inductive encoding reflects. -/

inductive MPath where
  | model : MPath
  | meta : MPath
  | archiveModel : String → MPath
  | archiveMeta : String → MPath
deriving DecidableEq

def FileSystem : Type := MPath → Option String

def fsEmpty : FileSystem := fun _ => none

def fsWrite (fs : FileSystem) (p : MPath) (c : String) : FileSystem :=
  fun q => if q = p then some c else fs q

def fsExists (fs : FileSystem) (p : MPath) : Bool :=
  (fs p).isSome

/-- Model of shutil.copy2: copies the content of src to dst, overwriting dst
if it already exists.  (In the code the source always exists when called.) -/
def fsCopy2 (fs : FileSystem) (src dst : MPath) : FileSystem :=
  match fs src with
  | some c => fsWrite fs dst c
  | none => fs

/-- archive_previous_model (train_classifier.py lines 149-175): returns
immediately if no model exists at the output path; otherwise copies the
model binary to archive/{stem}_{timestamp}{suffix} and, if the metadata
sibling exists, copies it to archive/{stem}_{timestamp}.meta.json. -/
def archive_previous_model (ts : String) (fs : FileSystem) : FileSystem :=
  if fsExists fs MPath.model then
    let fs1 := fsCopy2 fs MPath.model (MPath.archiveModel ts)
    if fsExists fs1 MPath.meta then fsCopy2 fs1 MPath.meta (MPath.archiveMeta ts) else fs1
  else fs

/-- The successive filesystem states of the non-dry-run persistence sequence
in main (train_classifier.py lines 300-315): initial state, after
archive_previous_model, after writing the model binary, after writing the
metadata file.  The list order is the temporal order of the operations. -/
def trainPersistStates (ts newModel newMeta : String) (fs : FileSystem) : List FileSystem :=
  let fs1 := archive_previous_model ts fs
  let fs2 := fsWrite fs1 MPath.model newModel
  let fs3 := fsWrite fs2 MPath.meta newMeta
  [fs, fs1, fs2, fs3]

/-- The persistence step of main (train_classifier.py lines 300-315): in
dry-run mode nothing is written; otherwise the previous model is archived,
then the new model binary and then the new metadata file are written. -/
def mainTrain (dry_run : Bool) (ts newModel newMeta : String) (fs : FileSystem) : FileSystem :=
  if dry_run then fs
  else
    let fs1 := archive_previous_model ts fs
    let fs2 := fsWrite fs1 MPath.model newModel
    fsWrite fs2 MPath.meta newMeta

/-- Concrete state for the archive-overwrite counterexample: the archive
directory already holds an archived model under the timestamp
20240101_000000, and a current model exists at the output path. -/
def c2CollisionFs : FileSystem :=
  fsWrite (fsWrite fsEmpty MPath.model "current-model")
    (MPath.archiveModel "20240101_000000") "older-archived-model"

/-- Concrete state for the archival witness: a current model and metadata
file exist, the archive directory is empty. -/
def c2WitnessFs : FileSystem :=
  fsWrite (fsWrite fsEmpty MPath.model "previous-model") MPath.meta "previous-meta"

/-! ### Compare decision (feedback_server.py handle_compare, lines 293-313) -/

inductive RecCategory where
  | noBaseline : RecCategory
  | notRecommended : RecCategory
  | retrainRecommended : RecCategory
  | minorImprovement : RecCategory
  | unableToCalculate : RecCategory
deriving DecidableEq

/-- The parse result of the new accuracy scraped from the dry-run output:
either the Accuracy line was absent (falsy, treated as 0), or float() raised
(ValueError path), or a numeric value was obtained. -/
inductive ParsedAccuracy where
  | missing : ParsedAccuracy
  | unreadable : ParsedAccuracy
  | value : ℚ → ParsedAccuracy

/-- The numeric comparison core of handle_compare: category and improvement
percentage from the two accuracy means.  Python float division raises
ZeroDivisionError on a zero denominator, which the surrounding
except (ValueError, TypeError) clause does not catch, so the whole request
fails with HTTP 500 and no recommendation; the fallible division is
modelled as the error branch of an Except. -/
def compareCore (current_acc new_acc : ℚ) : Except String (RecCategory × Option ℚ) :=
  if new_acc > current_acc then
    if current_acc = 0 then Except.error "ZeroDivisionError"
    else
      let improvement := (new_acc - current_acc) / current_acc * 100
      if improvement > 5 then Except.ok (RecCategory.retrainRecommended, some improvement)
      else Except.ok (RecCategory.minorImprovement, some improvement)
  else Except.ok (RecCategory.notRecommended, none)

/-- The recommendation logic of handle_compare (feedback_server.py lines
293-313).  current_metrics is none when no metadata file exists (or its
metrics dict is empty, which Python treats as falsy the same way); when the
dict is present, the accuracy_mean key may be absent (inner none, code
defaults it to 0).  The error outcome is the uncaught ZeroDivisionError of
the improvement computation (HTTP 500, no recommendation produced). -/
def compareRecommendation (current_metrics : Option (Option ℚ))
    (newAccuracy : ParsedAccuracy) : Except String (RecCategory × Option ℚ) :=
  match current_metrics with
  | none => Except.ok (RecCategory.noBaseline, none)
  | some curOpt =>
    match newAccuracy with
    | ParsedAccuracy.unreadable => Except.ok (RecCategory.unableToCalculate, none)
    | ParsedAccuracy.missing => compareCore (curOpt.getD 0) 0
    | ParsedAccuracy.value q => compareCore (curOpt.getD 0) q

/-! ### Blocklist (feedback_server.py handle_blocklist, lines 340-393) -/

structure BlocklistEntry where
  hash : String
  description : String
  source : String
  addedAt : String
deriving DecidableEq

structure Blocklist where
  version : ℕ
  entries : List BlocklistEntry
deriving DecidableEq

def emptyBlocklist : Blocklist := { version := 1, entries := [] }

/-- handle_blocklist after the perceptual hash of the image has been
computed (hash_hex): loads the stored blocklist (or starts a fresh one if
the file is absent), rejects if any entry already has the same hash, and
otherwise appends a new entry and saves. -/
def handle_blocklist_add (stored : Option Blocklist) (hash_hex source addedAt : String) :
    Except String Blocklist :=
  let blocklist := stored.getD emptyBlocklist
  if blocklist.entries.any (fun e => e.hash == hash_hex) then
    Except.error "Image already in blocklist"
  else
    Except.ok { blocklist with
      entries := blocklist.entries ++
        [{ hash := hash_hex, description := "Added via feedback UI",
           source := source, addedAt := addedAt }] }

/-- The persisted blocklist after a handle_blocklist request: on the
duplicate-entry error nothing is written, so the stored state is unchanged;
on success the extended blocklist is written. -/
def blocklistStateAfter (stored : Option Blocklist) (hash_hex source addedAt : String) :
    Option Blocklist :=
  match handle_blocklist_add stored hash_hex source addedAt with
  | Except.error _ => stored
  | Except.ok b => some b

/-- Concrete blocklist holding one entry, for the duplicate-rejection
witness. -/
def blWitness : Blocklist :=
  { version := 1,
    entries := [{ hash := "aaaa0000bbbb1111", description := "Added via feedback UI",
                  source := "VideoName/1/still_0001.jpg", addedAt := "2024-01-01T00:00:00Z" }] }

/-! ### Correction ingestion (feedback_server.py handle_corrections, lines 84-132) -/

/-- One reviewer correction as received in the request JSON; a missing key
yields none and Python also treats an empty string as falsy. -/
structure Correction where
  filename : Option String
  newLabel : Option String

/-- The environment of one handle_corrections run: which source files exist
in the output directory, and whether the copy of a given source file
succeeds (shutil.copy2 may raise). -/
structure IngestEnv where
  sourceExists : String → Bool
  copySucceeds : String → Bool

/-- Python falsiness of an optional string: None and the empty string. -/
def falsyStr : Option String → Bool
  | none => true
  | some s => s.isEmpty

/-- Index of the last dot in a list of characters. -/
def lastDotIndex (cs : List Char) : Option ℕ :=
  match cs.reverse.findIdx? (fun c => c == '.') with
  | some j => some (cs.length - 1 - j)
  | none => none

/-- pathlib PurePath.stem: the filename without its final extension; the
extension only counts when the last dot is neither the first nor the last
character. -/
def pathStem (name : String) : String :=
  let cs := name.toList
  match lastDotIndex cs with
  | some i => if 0 < i ∧ i < cs.length - 1 then String.mk (cs.take i) else name
  | none => name

/-- pathlib PurePath.suffix: the final extension including the dot, empty
when there is none. -/
def pathSuffix (name : String) : String :=
  let cs := name.toList
  match lastDotIndex cs with
  | some i => if 0 < i ∧ i < cs.length - 1 then String.mk (cs.drop i) else ""
  | none => ""

/-- Accumulated outcome of handle_corrections: moved_count, the collected
error messages, and the destination files written (dest dir / prefixed
name), in order. -/
structure IngestResult where
  movedCount : ℕ
  errors : List String
  copied : List String
deriving DecidableEq

/-- The loop body of handle_corrections for one correction, in source
order: falsy filename or label, then missing source image, then label
dispatch (keep / exclude / invalid), then the copy attempt. -/
def processCorrection (env : IngestEnv) (videoName scanNumber : String)
    (acc : IngestResult) (c : Correction) : IngestResult :=
  if falsyStr c.filename || falsyStr c.newLabel then
    { acc with errors := acc.errors ++ ["Invalid correction"] }
  else
    let filename := c.filename.getD ""
    let new_label := c.newLabel.getD ""
    if env.sourceExists filename = false then
      { acc with errors := acc.errors ++ ["Image not found: " ++ filename] }
    else if new_label == "keep" || new_label == "exclude" then
      let dest := new_label ++ "/" ++ videoName ++ "_" ++ scanNumber ++ "_" ++
        pathStem filename ++ pathSuffix filename
      if env.copySucceeds filename then
        { acc with movedCount := acc.movedCount + 1, copied := acc.copied ++ [dest] }
      else
        { acc with errors := acc.errors ++ ["Failed to copy " ++ filename] }
    else
      { acc with errors := acc.errors ++ ["Invalid label " ++ new_label ++ " for " ++ filename] }

/-- handle_corrections over a full correction list: the loop starting from
moved_count = 0 and empty error list.  It is a total function: per-item
failures are recorded and never abort the remaining items. -/
def handle_corrections (env : IngestEnv) (videoName scanNumber : String)
    (corrections : List Correction) : IngestResult :=
  corrections.foldl (processCorrection env videoName scanNumber)
    { movedCount := 0, errors := [], copied := [] }

/-- A correction is invalid when it fails any of the per-item checks of the
loop: falsy filename or label, missing source image, label outside
keep / exclude, or a failing copy. -/
def correctionInvalid (env : IngestEnv) (c : Correction) : Bool :=
  falsyStr c.filename || falsyStr c.newLabel ||
  !env.sourceExists (c.filename.getD "") ||
  !(c.newLabel.getD "" == "keep" || c.newLabel.getD "" == "exclude") ||
  !env.copySucceeds (c.filename.getD "")

/-! ### Dataset loading (train_classifier.py load_labeled_data, lines 67-103) -/

/-- Case-sensitive filename suffix test, modelling a glob pattern of the
shape star-dot-extension. -/
def strEndsWith (s post : String) : Bool :=
  s.toList.reverse.take post.toList.length == post.toList.reverse

/-- glob("*.jpg") followed by glob("*.png") over the files of one class
directory, in that order. -/
def globImages (files : List String) : List String :=
  files.filter (fun f => strEndsWith f ".jpg") ++ files.filter (fun f => strEndsWith f ".png")

/-- The image files contributed by one class subdirectory; a missing
directory (dir.exists() false) contributes nothing. -/
def dirImages (dir : Option (List String)) : List String :=
  match dir with
  | some files => globImages files
  | none => []

/-- load_labeled_data: keep images (label 0) then exclude images (label 1);
raises when no image was found in either group.  A class directory is
modelled as none when absent and as its file list when present. -/
def load_labeled_data (keepDir excludeDir : Option (List String)) :
    Except String (List String × List ℕ) :=
  let keep_images := dirImages keepDir
  let exclude_images := dirImages excludeDir
  let image_paths := keep_images ++ exclude_images
  let labels := List.replicate keep_images.length 0 ++ List.replicate exclude_images.length 1
  if image_paths.length = 0 then Except.error "No images found"
  else Except.ok (image_paths, labels)

/-! ### Endpoint prechecks (feedback_server.py lines 157-161 and 232-236) -/

/-- The glob("*.jpg") enumeration used by the endpoint prechecks; note it
does not look at png files. -/
def jpgGlob (dir : Option (List String)) : List String :=
  match dir with
  | some files => files.filter (fun f => strEndsWith f ".jpg")
  | none => []

/-- The training-data emptiness precheck of handle_retrain: rejects with an
error when both jpg globs are empty. -/
def handle_retrain_precheck (keepDir excludeDir : Option (List String)) : Option String :=
  if (jpgGlob keepDir).length = 0 ∧ (jpgGlob excludeDir).length = 0 then
    some "No training images found"
  else none

/-- The identical training-data emptiness precheck of handle_compare. -/
def handle_compare_precheck (keepDir excludeDir : Option (List String)) : Option String :=
  if (jpgGlob keepDir).length = 0 ∧ (jpgGlob excludeDir).length = 0 then
    some "No training images found"
  else none

/-! ### Data fingerprint (train_classifier.py compute_data_hash, lines 106-116) -/

/-- compute_data_hash: feeds str(path) then str(mtime) for every path in
sorted order into a SHA-256 hasher and truncates the hex digest to 8
characters.  The SHA-256 hex digest of the concatenated byte stream is the
external primitive sha256hex; mtime models the filesystem stat call. -/
def compute_data_hash (sha256hex : String → String) (image_paths : List String)
    (mtime : String → String) : String :=
  (sha256hex (String.join
    ((List.insertionSort (fun a b : String => a ≤ b) image_paths).map
      (fun p => p ++ mtime p)))).take 8

/-! ### Class balance (train_classifier.py main, lines 206-215) -/

/-- class_ratio = max(keep_count, exclude_count) / max(min(keep_count,
exclude_count), 1), computed in Python float division, modelled over the
rationals. -/
def class_ratio (keep_count exclude_count : ℕ) : ℚ :=
  ((max keep_count exclude_count : ℕ) : ℚ) / ((max (min keep_count exclude_count) 1 : ℕ) : ℚ)

/-- The imbalance warning condition of main: ratio strictly above 2.0. -/
def imbalance_warning (keep_count exclude_count : ℕ) : Bool :=
  decide (class_ratio keep_count exclude_count > 2)

/-- The evaluation segment of main: computes the (non-fatal) imbalance
warning flag and then unconditionally runs the 5-fold cross-validation,
whose numeric outcome is the external primitive cross_validate. -/
def evaluateWithImbalanceCheck {M : Type} (cross_validate : Unit → M)
    (keep_count exclude_count : ℕ) : Bool × M :=
  (imbalance_warning keep_count exclude_count, cross_validate ())

/-- The blocklist obtained from blWitness by a successful add of a second,
fresh hash, for the idempotence witness. -/
def blWitness2 : Blocklist :=
  { version := 1,
    entries := blWitness.entries ++
      [{ hash := "cccc2222dddd3333", description := "Added via feedback UI",
         source := "VideoName/1/still_0002.jpg", addedAt := "2024-01-02T00:00:00Z" }] }

/-! ## Claim theorems -/

/-- C1 counterexample: with a baseline present whose accuracy mean is 0
(reachable when the metrics dict lacks the accuracy_mean key, defaulted to
0, or stores 0.0) and a greater new accuracy, the improvement division
raises ZeroDivisionError, which except (ValueError, TypeError) does not
catch: the request fails with HTTP 500 and no recommendation category is
produced, contrary to the claim's unconditional new-greater branch. -/
theorem C1_zero_division_counterexample :
    compareRecommendation (some (some 0)) (ParsedAccuracy.value (7/8)) =
      Except.error "ZeroDivisionError" ∧
    ∀ rec : RecCategory × Option ℚ,
      compareRecommendation (some (some 0)) (ParsedAccuracy.value (7/8)) ≠
        Except.ok rec := by
  have hg : (0 : ℚ) < 7/8 := by norm_num
  constructor
  · simp [compareRecommendation, compareCore, hg]
  · intro rec h
    simp [compareRecommendation, compareCore, hg] at h

/-- C1 (amended): the compare recommendation is the no-baseline category
when no current metadata exists; with a baseline, new accuracy at most the
current one yields the not-recommended category; a strictly greater new
accuracy against a nonzero current one yields improvement_pct =
(new - current)/current * 100 with the retrain-recommended category exactly
when improvement_pct exceeds 5 and the minor-improvement category
otherwise; a strictly greater new accuracy against a current accuracy of 0
raises an uncaught ZeroDivisionError and produces no recommendation; at
current 0.80 and new 0.88 the improvement is 10.0 and the category is
retrain-recommended. -/
theorem C1_compare_recommendation :
    ∀ (c q : ℚ) (pa : ParsedAccuracy),
      compareRecommendation none pa = Except.ok (RecCategory.noBaseline, none) ∧
      (q ≤ c →
        compareRecommendation (some (some c)) (ParsedAccuracy.value q) =
          Except.ok (RecCategory.notRecommended, none)) ∧
      (c < q → c ≠ 0 →
        compareRecommendation (some (some c)) (ParsedAccuracy.value q) =
          Except.ok (if (q - c) / c * 100 > 5 then RecCategory.retrainRecommended
            else RecCategory.minorImprovement, some ((q - c) / c * 100))) ∧
      (0 < q →
        compareRecommendation (some (some 0)) (ParsedAccuracy.value q) =
          Except.error "ZeroDivisionError") ∧
      compareRecommendation (some (some (4/5))) (ParsedAccuracy.value (22/25)) =
        Except.ok (RecCategory.retrainRecommended, some 10) := by
  intro c q pa
  refine ⟨rfl, fun h => ?_, fun h hz => ?_, fun h => ?_, ?_⟩
  · have hng : ¬ (q > c) := not_lt.mpr h
    simp [compareRecommendation, compareCore, hng]
  · have hg : q > c := h
    simp [compareRecommendation, compareCore, hg, hz]
    split <;> rfl
  · simp [compareRecommendation, compareCore, h]
  · have h10 : ((22/25 : ℚ) - 4/5) / (4/5) * 100 = 10 := by norm_num
    have hg : (22/25 : ℚ) > 4/5 := by norm_num
    have hz : (4/5 : ℚ) ≠ 0 := by norm_num
    simp [compareRecommendation, compareCore, hg, hz, h10]
    norm_num

/-- Witness for C1 at concrete inputs: no baseline, a worse new accuracy,
the zero-baseline error path, and the 0.80 to 0.88 scenario. -/
theorem C1_compare_recommendation_witness :
    compareRecommendation none ParsedAccuracy.missing =
      Except.ok (RecCategory.noBaseline, none) ∧
    compareRecommendation (some (some (1/2))) (ParsedAccuracy.value (1/4)) =
      Except.ok (RecCategory.notRecommended, none) ∧
    compareRecommendation (some (some 0)) (ParsedAccuracy.value (3/4)) =
      Except.error "ZeroDivisionError" ∧
    compareRecommendation (some (some (4/5))) (ParsedAccuracy.value (22/25)) =
      Except.ok (RecCategory.retrainRecommended, some 10) :=
  ⟨(C1_compare_recommendation (1/2) (1/4) ParsedAccuracy.missing).1,
   (C1_compare_recommendation (1/2) (1/4) ParsedAccuracy.missing).2.1 (by norm_num),
   (C1_compare_recommendation 0 (3/4) ParsedAccuracy.missing).2.2.2.1 (by norm_num),
   (C1_compare_recommendation (1/2) (1/4) ParsedAccuracy.missing).2.2.2.2⟩

/-- C5: in dry-run mode the persistence step of main changes nothing: no
archival, no model write, no metadata write; every path of the filesystem
model, including the output path, its metadata sibling and all archive
paths, is unchanged. -/
theorem C5_dry_run_no_persistence :
    ∀ (ts newModel newMeta : String) (fs : FileSystem) (p : MPath),
      mainTrain true ts newModel newMeta fs p = fs p := by
  intro ts newModel newMeta fs p
  rfl

/-- C7: whenever the class ratio strictly exceeds 2.0 the evaluator sets
the non-fatal imbalance warning flag, and the cross-validation result is
produced regardless; for 10 keep and 2 exclude images the ratio is 5.0, the
warning fires, and the metrics are still those of the 5-fold
cross-validation call. -/
theorem C7_imbalance_warning :
    ∀ {M : Type} (cross_validate : Unit → M) (keep_count exclude_count : ℕ),
      (class_ratio keep_count exclude_count > 2 →
        (evaluateWithImbalanceCheck cross_validate keep_count exclude_count).1 = true) ∧
      (evaluateWithImbalanceCheck cross_validate keep_count exclude_count).2 =
        cross_validate () ∧
      class_ratio 10 2 = 5 ∧
      (evaluateWithImbalanceCheck cross_validate 10 2).1 = true := by
  intro M cv k e
  have h1 : (max 10 2 : ℕ) = 10 := by decide
  have h2 : (max (min 10 2) 1 : ℕ) = 2 := by decide
  have h5 : class_ratio 10 2 = 5 := by
    unfold class_ratio
    rw [h1, h2]
    norm_num
  refine ⟨fun h => ?_, rfl, h5, ?_⟩
  · simp [evaluateWithImbalanceCheck, imbalance_warning]
    exact h
  · simp [evaluateWithImbalanceCheck, imbalance_warning, h5]
    norm_num

/-- Witness for C7 at 10 keep and 2 exclude images with a concrete
cross-validation outcome. -/
theorem C7_imbalance_warning_witness :
    (evaluateWithImbalanceCheck (fun _ => (0 : ℕ)) 10 2).1 = true ∧
    (evaluateWithImbalanceCheck (fun _ => (0 : ℕ)) 10 2).2 = (fun _ : Unit => (0 : ℕ)) () ∧
    class_ratio 10 2 = 5 :=
  ⟨(C7_imbalance_warning (fun _ => (0 : ℕ)) 10 2).2.2.2,
   (C7_imbalance_warning (fun _ => (0 : ℕ)) 10 2).2.1,
   (C7_imbalance_warning (fun _ => (0 : ℕ)) 10 2).2.2.1⟩

/-- C10: the class-ratio denominator max(min(keep, exclude), 1) is never
zero, and when one class is empty the ratio equals the majority class
count. -/
theorem C10_class_ratio_safe :
    ∀ keep_count exclude_count : ℕ,
      ((max (min keep_count exclude_count) 1 : ℕ) : ℚ) ≠ 0 ∧
      (exclude_count = 0 → class_ratio keep_count exclude_count = (keep_count : ℚ)) ∧
      (keep_count = 0 → class_ratio keep_count exclude_count = (exclude_count : ℚ)) := by
  intro k e
  refine ⟨?_, fun he => ?_, fun hk => ?_⟩
  · have hpos : 0 < max (min k e) 1 := lt_of_lt_of_le Nat.zero_lt_one (le_max_right _ _)
    exact_mod_cast Nat.pos_iff_ne_zero.mp hpos
  · subst he
    unfold class_ratio
    simp
  · subst hk
    unfold class_ratio
    simp

/-- Witness for C10 with an empty exclude class. -/
theorem C10_class_ratio_safe_witness :
    ((max (min 7 0) 1 : ℕ) : ℚ) ≠ 0 ∧ class_ratio 7 0 = ((7 : ℕ) : ℚ) :=
  ⟨(C10_class_ratio_safe 7 0).1, (C10_class_ratio_safe 7 0).2.1 rfl⟩


/-- Unfolding of load_labeled_data into its branch structure. -/
theorem load_labeled_data_eq (keepDir excludeDir : Option (List String)) :
    load_labeled_data keepDir excludeDir =
      if (dirImages keepDir ++ dirImages excludeDir).length = 0 then
        Except.error "No images found"
      else
        Except.ok (dirImages keepDir ++ dirImages excludeDir,
          List.replicate (dirImages keepDir).length 0 ++
          List.replicate (dirImages excludeDir).length 1) := rfl

/-- C8: load_labeled_data fails with the empty-dataset error exactly when
both the keep group and the exclude group contribute no image files;
otherwise it returns the keep images followed by the exclude images with
parallel labels, 0 for every keep image and 1 for every exclude image. -/
theorem C8_load_labeled_data_spec :
    ∀ keepDir excludeDir : Option (List String),
      (load_labeled_data keepDir excludeDir = Except.error "No images found" ↔
        dirImages keepDir = [] ∧ dirImages excludeDir = []) ∧
      (dirImages keepDir ≠ [] ∨ dirImages excludeDir ≠ [] →
        load_labeled_data keepDir excludeDir =
          Except.ok (dirImages keepDir ++ dirImages excludeDir,
            List.replicate (dirImages keepDir).length 0 ++
            List.replicate (dirImages excludeDir).length 1)) ∧
      (∀ ps ls, load_labeled_data keepDir excludeDir = Except.ok (ps, ls) →
        ps.length = ls.length) := by
  intro kd ed
  by_cases h : (dirImages kd ++ dirImages ed).length = 0
  · have h0 : dirImages kd = [] ∧ dirImages ed = [] := by
      rw [List.length_append] at h
      exact ⟨List.length_eq_zero.mp (Nat.eq_zero_of_add_eq_zero_right h),
        List.length_eq_zero.mp (Nat.eq_zero_of_add_eq_zero_left h)⟩
    refine ⟨?_, fun hne => ?_, fun ps ls hok => ?_⟩
    · rw [load_labeled_data_eq, if_pos h]
      simp [h0]
    · rcases hne with hne | hne
      · exact absurd h0.1 hne
      · exact absurd h0.2 hne
    · rw [load_labeled_data_eq, if_pos h] at hok
      exact absurd hok (by simp)
  · refine ⟨?_, fun _ => ?_, fun ps ls hok => ?_⟩
    · rw [load_labeled_data_eq, if_neg h]
      simp only [iff_false, reduceCtorEq, false_iff]
      intro hboth
      exact h (by simp [hboth.1, hboth.2])
    · rw [load_labeled_data_eq, if_neg h]
    · rw [load_labeled_data_eq, if_neg h] at hok
      have hpair := Except.ok.inj hok
      have hps : dirImages kd ++ dirImages ed = ps := congrArg Prod.fst hpair
      have hls : List.replicate (dirImages kd).length 0 ++
          List.replicate (dirImages ed).length 1 = ls := congrArg Prod.snd hpair
      rw [← hps, ← hls]
      simp [List.length_append]

/-- Witness for C8 on a one-jpg keep group and a one-png exclude group. -/
theorem C8_load_labeled_data_spec_witness :
    load_labeled_data (some ["a.jpg"]) (some ["b.png"]) =
      Except.ok (dirImages (some ["a.jpg"]) ++ dirImages (some ["b.png"]),
        List.replicate (dirImages (some ["a.jpg"])).length 0 ++
        List.replicate (dirImages (some ["b.png"])).length 1) ∧
    (["a.jpg", "b.png"] : List String).length = ([0, 1] : List ℕ).length :=
  ⟨(C8_load_labeled_data_spec (some ["a.jpg"]) (some ["b.png"])).2.1 (Or.inl (by decide)),
   (C8_load_labeled_data_spec (some ["a.jpg"]) (some ["b.png"])).2.2
     ["a.jpg", "b.png"] [0, 1] rfl⟩

/-- C9: the retrain and compare endpoint prechecks enumerate only jpg
files, so a non-empty training set consisting exclusively of png files is
rejected by both endpoints with the no-training-images error, even though
load_labeled_data (the training step itself) loads those png files. -/
theorem C9_png_only_rejected_by_precheck :
    ∀ keepFiles excludeFiles : List String,
      (∀ f ∈ keepFiles, strEndsWith f ".png" = true ∧ strEndsWith f ".jpg" = false) →
      (∀ f ∈ excludeFiles, strEndsWith f ".png" = true ∧ strEndsWith f ".jpg" = false) →
      keepFiles ≠ [] ∨ excludeFiles ≠ [] →
      handle_retrain_precheck (some keepFiles) (some excludeFiles) =
        some "No training images found" ∧
      handle_compare_precheck (some keepFiles) (some excludeFiles) =
        some "No training images found" ∧
      load_labeled_data (some keepFiles) (some excludeFiles) =
        Except.ok (keepFiles ++ excludeFiles,
          List.replicate keepFiles.length 0 ++
          List.replicate excludeFiles.length 1) := by
  intro kfs efs hk he hne
  have hkj : kfs.filter (fun f => strEndsWith f ".jpg") = [] :=
    List.filter_eq_nil_iff.mpr (fun f hf => by simp [(hk f hf).2])
  have hej : efs.filter (fun f => strEndsWith f ".jpg") = [] :=
    List.filter_eq_nil_iff.mpr (fun f hf => by simp [(he f hf).2])
  have hkp : kfs.filter (fun f => strEndsWith f ".png") = kfs :=
    List.filter_eq_self.mpr (fun f hf => by simp [(hk f hf).1])
  have hep : efs.filter (fun f => strEndsWith f ".png") = efs :=
    List.filter_eq_self.mpr (fun f hf => by simp [(he f hf).1])
  have hk' : dirImages (some kfs) = kfs := by simp [dirImages, globImages, hkj, hkp]
  have he' : dirImages (some efs) = efs := by simp [dirImages, globImages, hej, hep]
  have hlen : ¬ ((dirImages (some kfs) ++ dirImages (some efs)).length = 0) := by
    rw [hk', he', List.length_append]
    intro hz
    rcases hne with hne | hne
    · exact hne (List.length_eq_zero.mp (Nat.eq_zero_of_add_eq_zero_right hz))
    · exact hne (List.length_eq_zero.mp (Nat.eq_zero_of_add_eq_zero_left hz))
  refine ⟨?_, ?_, ?_⟩
  · simp [handle_retrain_precheck, jpgGlob, hkj, hej]
  · simp [handle_compare_precheck, jpgGlob, hkj, hej]
  · rw [load_labeled_data_eq, if_neg hlen, hk', he']

/-- Witness for C9 on a training set whose only image is a png under the
exclude group, the keep group being empty. -/
theorem C9_png_only_rejected_by_precheck_witness :
    handle_retrain_precheck (some ([] : List String)) (some ["b.png"]) =
      some "No training images found" ∧
    handle_compare_precheck (some ([] : List String)) (some ["b.png"]) =
      some "No training images found" ∧
    load_labeled_data (some ([] : List String)) (some ["b.png"]) =
      Except.ok (([] : List String) ++ (["b.png"] : List String),
        List.replicate ([] : List String).length 0 ++
        List.replicate (["b.png"] : List String).length 1) :=
  C9_png_only_rejected_by_precheck [] ["b.png"] (by decide) (by decide)
    (Or.inr (by decide))

/-- Unfolding of handle_blocklist_add into its branch structure. -/
theorem handle_blocklist_add_eq (stored : Option Blocklist) (hash_hex source addedAt : String) :
    handle_blocklist_add stored hash_hex source addedAt =
      if (stored.getD emptyBlocklist).entries.any (fun e => e.hash == hash_hex) then
        Except.error "Image already in blocklist"
      else
        Except.ok { stored.getD emptyBlocklist with
          entries := (stored.getD emptyBlocklist).entries ++
            [{ hash := hash_hex, description := "Added via feedback UI",
               source := source, addedAt := addedAt }] } := rfl

/-- C3: adding an image whose computed 64-bit perceptual hash is already in
the blocklist fails with the duplicate-entry error and leaves the stored
blocklist unchanged; a successful add appends exactly one entry, after
which re-adding the same computed hash fails and exactly one entry with
that hash is stored; hash uniqueness is preserved by every add. -/
theorem C3_blocklist_duplicate_rejected :
    ∀ (stored : Blocklist) (hash_hex source addedAt : String),
      (stored.entries.any (fun e => e.hash == hash_hex) = true →
        handle_blocklist_add (some stored) hash_hex source addedAt =
          Except.error "Image already in blocklist" ∧
        blocklistStateAfter (some stored) hash_hex source addedAt = some stored) ∧
      (∀ b2, handle_blocklist_add (some stored) hash_hex source addedAt = Except.ok b2 →
        b2.entries = stored.entries ++
          [{ hash := hash_hex, description := "Added via feedback UI",
             source := source, addedAt := addedAt }] ∧
        b2.entries.countP (fun e => e.hash == hash_hex) = 1 ∧
        (∀ source2 addedAt2,
          handle_blocklist_add (some b2) hash_hex source2 addedAt2 =
            Except.error "Image already in blocklist" ∧
          blocklistStateAfter (some b2) hash_hex source2 addedAt2 = some b2)) ∧
      ((stored.entries.map BlocklistEntry.hash).Nodup →
        ∀ b2, handle_blocklist_add (some stored) hash_hex source addedAt = Except.ok b2 →
          (b2.entries.map BlocklistEntry.hash).Nodup) := by
  intro bl h src t
  refine ⟨fun hdup => ?_, fun b2 hok => ?_, fun hnd b2 hok => ?_⟩
  · constructor
    · rw [handle_blocklist_add_eq]
      simp [hdup]
    · simp [blocklistStateAfter, handle_blocklist_add_eq, hdup]
  · cases hany : bl.entries.any (fun e => e.hash == h) with
    | true =>
      rw [handle_blocklist_add_eq] at hok
      simp [hany] at hok
    | false =>
      rw [handle_blocklist_add_eq] at hok
      simp only [Option.getD_some, hany, Bool.false_eq_true, if_false,
        Except.ok.injEq] at hok
      subst hok
      have hzero : bl.entries.countP (fun e => e.hash == h) = 0 := by
        rw [List.countP_eq_zero]
        intro e he
        exact (List.any_eq_false.mp hany) e he
      have hany2 : (bl.entries ++
          [{ hash := h, description := "Added via feedback UI",
             source := src, addedAt := t : BlocklistEntry }]).any
            (fun e => e.hash == h) = true := by
        simp [List.any_append]
      refine ⟨rfl, ?_, fun src2 t2 => ?_⟩
      · simp [List.countP_append, hzero, List.countP_cons]
      · constructor
        · rw [handle_blocklist_add_eq]
          simp [hany2]
        · simp [blocklistStateAfter, handle_blocklist_add_eq, hany2]
  · cases hany : bl.entries.any (fun e => e.hash == h) with
    | true =>
      rw [handle_blocklist_add_eq] at hok
      simp [hany] at hok
    | false =>
      rw [handle_blocklist_add_eq] at hok
      simp only [Option.getD_some, hany, Bool.false_eq_true, if_false,
        Except.ok.injEq] at hok
      subst hok
      have hnotmem : h ∉ bl.entries.map BlocklistEntry.hash := by
        simp only [List.mem_map]
        rintro ⟨e, he, hhe⟩
        have hfe := (List.any_eq_false.mp hany) e he
        exact hfe (by simp [hhe])
      simp [List.nodup_append, hnd, hnotmem]

/-- Witness for C3: re-adding the stored hash is rejected without change;
a fresh hash is appended once, is then rejected on the second attempt, and
hash uniqueness holds afterwards. -/
theorem C3_blocklist_duplicate_rejected_witness :
    (handle_blocklist_add (some blWitness) "aaaa0000bbbb1111" "x" "y" =
       Except.error "Image already in blocklist" ∧
     blocklistStateAfter (some blWitness) "aaaa0000bbbb1111" "x" "y" = some blWitness) ∧
    blWitness2.entries.countP (fun e => e.hash == "cccc2222dddd3333") = 1 ∧
    (handle_blocklist_add (some blWitness2) "cccc2222dddd3333" "x2" "y2" =
       Except.error "Image already in blocklist" ∧
     blocklistStateAfter (some blWitness2) "cccc2222dddd3333" "x2" "y2" = some blWitness2) ∧
    (blWitness2.entries.map BlocklistEntry.hash).Nodup :=
  ⟨(C3_blocklist_duplicate_rejected blWitness "aaaa0000bbbb1111" "x" "y").1 (by decide),
   ((C3_blocklist_duplicate_rejected blWitness "cccc2222dddd3333"
      "VideoName/1/still_0002.jpg" "2024-01-02T00:00:00Z").2.1 blWitness2 rfl).2.1,
   ((C3_blocklist_duplicate_rejected blWitness "cccc2222dddd3333"
      "VideoName/1/still_0002.jpg" "2024-01-02T00:00:00Z").2.1 blWitness2 rfl).2.2 "x2" "y2",
   (C3_blocklist_duplicate_rejected blWitness "cccc2222dddd3333"
      "VideoName/1/still_0002.jpg" "2024-01-02T00:00:00Z").2.2 (by decide) blWitness2 rfl⟩

/-- Each loop iteration of handle_corrections either records exactly one
error (invalid correction) or performs exactly one copy and increments
moved_count (valid correction); it never aborts. -/
theorem processCorrection_step (env : IngestEnv) (v s : String)
    (acc : IngestResult) (c : Correction) :
    (correctionInvalid env c = true ∧ ∃ msg, processCorrection env v s acc c =
        { acc with errors := acc.errors ++ [msg] }) ∨
    (correctionInvalid env c = false ∧ ∃ dest, processCorrection env v s acc c =
        { acc with movedCount := acc.movedCount + 1, copied := acc.copied ++ [dest] }) := by
  cases hf : falsyStr c.filename with
  | true =>
    exact Or.inl ⟨by simp [correctionInvalid, hf], "Invalid correction",
      by simp [processCorrection, hf]⟩
  | false =>
  cases hl : falsyStr c.newLabel with
  | true =>
    exact Or.inl ⟨by simp [correctionInvalid, hf, hl], "Invalid correction",
      by simp [processCorrection, hf, hl]⟩
  | false =>
  cases hs : env.sourceExists (c.filename.getD "") with
  | false =>
    exact Or.inl ⟨by simp [correctionInvalid, hf, hl, hs],
      "Image not found: " ++ c.filename.getD "",
      by simp [processCorrection, hf, hl, hs]⟩
  | true =>
  cases hlab : (c.newLabel.getD "" == "keep" || c.newLabel.getD "" == "exclude") with
  | false =>
    exact Or.inl ⟨by simp [correctionInvalid, hf, hl, hs, hlab],
      "Invalid label " ++ c.newLabel.getD "" ++ " for " ++ c.filename.getD "",
      by simp [processCorrection, hf, hl, hs, hlab]⟩
  | true =>
  cases hc : env.copySucceeds (c.filename.getD "") with
  | false =>
    exact Or.inl ⟨by simp [correctionInvalid, hf, hl, hs, hlab, hc],
      "Failed to copy " ++ c.filename.getD "",
      by simp [processCorrection, hf, hl, hs, hlab, hc]⟩
  | true =>
    exact Or.inr ⟨by simp [correctionInvalid, hf, hl, hs, hlab, hc],
      c.newLabel.getD "" ++ "/" ++ v ++ "_" ++ s ++ "_" ++
        pathStem (c.filename.getD "") ++ pathSuffix (c.filename.getD ""),
      by simp [processCorrection, hf, hl, hs, hlab, hc]⟩

/-- Accumulator-generalised counting lemma for the handle_corrections
loop. -/
theorem handle_corrections_counts (env : IngestEnv) (v s : String) :
    ∀ (cs : List Correction) (acc : IngestResult),
      ((cs.foldl (processCorrection env v s) acc).movedCount =
        acc.movedCount + cs.countP (fun c => !correctionInvalid env c)) ∧
      ((cs.foldl (processCorrection env v s) acc).errors.length =
        acc.errors.length + cs.countP (correctionInvalid env)) ∧
      ((cs.foldl (processCorrection env v s) acc).copied.length =
        acc.copied.length + cs.countP (fun c => !correctionInvalid env c)) := by
  intro cs
  induction cs with
  | nil => intro acc; simp
  | cons c cs ih =>
    intro acc
    rcases processCorrection_step env v s acc c with ⟨hinv, msg, heq⟩ | ⟨hval, dest, heq⟩
    · have hrec := ih { acc with errors := acc.errors ++ [msg] }
      refine ⟨?_, ?_, ?_⟩
      · rw [List.foldl_cons, heq, hrec.1]
        simp [List.countP_cons, hinv]
      · rw [List.foldl_cons, heq, hrec.2.1]
        simp [List.countP_cons, hinv, List.length_append]
        omega
      · rw [List.foldl_cons, heq, hrec.2.2]
        simp [List.countP_cons, hinv]
    · have hrec := ih ({ acc with movedCount := acc.movedCount + 1, copied := acc.copied ++ [dest] })
      refine ⟨?_, ?_, ?_⟩
      · rw [List.foldl_cons, heq, hrec.1]
        simp [List.countP_cons, hval]
        omega
      · rw [List.foldl_cons, heq, hrec.2.1]
        simp [List.countP_cons, hval]
      · rw [List.foldl_cons, heq, hrec.2.2]
        simp [List.countP_cons, hval, List.length_append]
        omega

/-- C4: over any list of N corrections of which M are invalid (falsy
fields, missing source image, invalid label, or failing copy),
handle_corrections performs exactly N - M copies into the labeled-dataset
directories, collects exactly M error entries, and completes normally with
moved_count + error count = N: per-item failures never abort the batch. -/
theorem C4_corrections_partial_failure :
    ∀ (env : IngestEnv) (videoName scanNumber : String) (cs : List Correction),
      (handle_corrections env videoName scanNumber cs).movedCount =
        cs.length - cs.countP (correctionInvalid env) ∧
      (handle_corrections env videoName scanNumber cs).errors.length =
        cs.countP (correctionInvalid env) ∧
      (handle_corrections env videoName scanNumber cs).copied.length =
        cs.length - cs.countP (correctionInvalid env) ∧
      (handle_corrections env videoName scanNumber cs).movedCount +
        (handle_corrections env videoName scanNumber cs).errors.length = cs.length := by
  intro env v s cs
  have hc := handle_corrections_counts env v s cs
    { movedCount := 0, errors := [], copied := [] }
  have hsplit : cs.countP (correctionInvalid env) +
      cs.countP (fun c => !correctionInvalid env c) = cs.length := by
    clear hc
    induction cs with
    | nil => simp
    | cons c cs ih =>
      cases h : correctionInvalid env c <;> simp [List.countP_cons, h] <;> omega
  unfold handle_corrections
  rcases hc with ⟨h1, h2, h3⟩
  rw [h1, h2, h3]
  refine ⟨?_, ?_, ?_, ?_⟩ <;> simp <;> omega

/-- Pointwise value of fsWrite. -/
theorem fsWrite_same (fs : FileSystem) (p : MPath) (c : String) :
    fsWrite fs p c p = some c := by
  simp [fsWrite]

/-- fsWrite leaves every other path unchanged. -/
theorem fsWrite_ne (fs : FileSystem) (p : MPath) (c : String) (q : MPath)
    (h : q ≠ p) : fsWrite fs p c q = fs q := by
  simp [fsWrite, h]

/-- fsCopy2 on an existing source is a write of its content. -/
theorem fsCopy2_of_some (fs : FileSystem) (src dst : MPath) (c : String)
    (h : fs src = some c) : fsCopy2 fs src dst = fsWrite fs dst c := by
  unfold fsCopy2
  rw [h]

/-- Unfolding of archive_previous_model into its branch structure. -/
theorem archive_previous_model_eq (ts : String) (fs : FileSystem) :
    archive_previous_model ts fs =
      if fsExists fs MPath.model then
        (if fsExists (fsCopy2 fs MPath.model (MPath.archiveModel ts)) MPath.meta then
          fsCopy2 (fsCopy2 fs MPath.model (MPath.archiveModel ts)) MPath.meta
            (MPath.archiveMeta ts)
        else fsCopy2 fs MPath.model (MPath.archiveModel ts))
      else fs := rfl

/-- Unfolding of the non-dry-run persistence sequence. -/
theorem mainTrain_false_eq (ts newModel newMeta : String) (fs : FileSystem) :
    mainTrain false ts newModel newMeta fs =
      fsWrite (fsWrite (archive_previous_model ts fs) MPath.model newModel)
        MPath.meta newMeta := rfl

/-- Unfolding of the persistence state trace. -/
theorem trainPersistStates_eq (ts newModel newMeta : String) (fs : FileSystem) :
    trainPersistStates ts newModel newMeta fs =
      [fs, archive_previous_model ts fs,
       fsWrite (archive_previous_model ts fs) MPath.model newModel,
       fsWrite (fsWrite (archive_previous_model ts fs) MPath.model newModel)
         MPath.meta newMeta] := rfl

/-- After archival the old model content sits at the new archive path, and
all paths other than the two new archive paths are untouched. -/
theorem archive_previous_model_spec (ts : String) (fs : FileSystem) (oldModel : String)
    (h1 : fs MPath.model = some oldModel) :
    archive_previous_model ts fs (MPath.archiveModel ts) = some oldModel ∧
    (∀ q, q ≠ MPath.archiveModel ts → q ≠ MPath.archiveMeta ts →
      archive_previous_model ts fs q = fs q) := by
  have hex : fsExists fs MPath.model = true := by simp [fsExists, h1]
  have happrev : archive_previous_model ts fs =
      (if fsExists (fsWrite fs (MPath.archiveModel ts) oldModel) MPath.meta then
        fsCopy2 (fsWrite fs (MPath.archiveModel ts) oldModel) MPath.meta
          (MPath.archiveMeta ts)
      else fsWrite fs (MPath.archiveModel ts) oldModel) := by
    rw [archive_previous_model_eq, if_pos hex,
      fsCopy2_of_some fs MPath.model (MPath.archiveModel ts) oldModel h1]
  have hmetane : MPath.meta ≠ MPath.archiveModel ts := by simp
  have hfs1meta : fsWrite fs (MPath.archiveModel ts) oldModel MPath.meta = fs MPath.meta :=
    fsWrite_ne fs (MPath.archiveModel ts) oldModel MPath.meta hmetane
  cases hm : fs MPath.meta with
  | none =>
    have hno : fsExists (fsWrite fs (MPath.archiveModel ts) oldModel) MPath.meta = false := by
      simp [fsExists, hfs1meta, hm]
    rw [hno] at happrev
    simp only [Bool.false_eq_true, if_false] at happrev
    constructor
    · rw [happrev]
      exact fsWrite_same fs (MPath.archiveModel ts) oldModel
    · intro q hq1 hq2
      rw [happrev]
      exact fsWrite_ne fs (MPath.archiveModel ts) oldModel q hq1
  | some m =>
    have hyes : fsExists (fsWrite fs (MPath.archiveModel ts) oldModel) MPath.meta = true := by
      simp [fsExists, hfs1meta, hm]
    have hfs1meta2 : fsWrite fs (MPath.archiveModel ts) oldModel MPath.meta = some m := by
      rw [hfs1meta, hm]
    rw [hyes] at happrev
    simp only [if_true] at happrev
    rw [fsCopy2_of_some _ _ _ _ hfs1meta2] at happrev
    have hdiff : MPath.archiveModel ts ≠ MPath.archiveMeta ts := by simp
    constructor
    · rw [happrev, fsWrite_ne _ _ _ _ hdiff]
      exact fsWrite_same fs (MPath.archiveModel ts) oldModel
    · intro q hq1 hq2
      rw [happrev, fsWrite_ne _ _ _ _ hq2]
      exact fsWrite_ne fs (MPath.archiveModel ts) oldModel q hq1

/-- C2 counterexample: shutil.copy2 overwrites an existing destination, so
when the archive directory already holds a file under the same
second-resolution timestamp name, a train invocation replaces that prior
archive (content older-archived-model becomes current-model): prior
archives are not unconditionally preserved. -/
theorem C2_archive_overwrite_counterexample :
    c2CollisionFs (MPath.archiveModel "20240101_000000") = some "older-archived-model" ∧
    mainTrain false "20240101_000000" "new-model" "new-meta" c2CollisionFs
      (MPath.archiveModel "20240101_000000") = some "current-model" ∧
    ("older-archived-model" : String) ≠ "current-model" :=
  ⟨rfl, rfl, by decide⟩

/-- C2 (amended): whenever a model exists at the output path and the
invocation's timestamped archive names are fresh, the archive copy of the
previous model is created strictly before the new binary overwrites the
canonical path — every state of the operation sequence holds at least one
copy of the previous model content — and no pre-existing archive file is
overwritten. -/
theorem C2_archival_before_overwrite :
    ∀ (ts newModel newMeta oldModel : String) (fs : FileSystem),
      fs MPath.model = some oldModel →
      fs (MPath.archiveModel ts) = none →
      fs (MPath.archiveMeta ts) = none →
      (∀ s ∈ trainPersistStates ts newModel newMeta fs, ∃ p, s p = some oldModel) ∧
      archive_previous_model ts fs (MPath.archiveModel ts) = some oldModel ∧
      mainTrain false ts newModel newMeta fs (MPath.archiveModel ts) = some oldModel ∧
      (∀ ts2 c, fs (MPath.archiveModel ts2) = some c →
        mainTrain false ts newModel newMeta fs (MPath.archiveModel ts2) = some c) ∧
      (∀ ts2 c, fs (MPath.archiveMeta ts2) = some c →
        mainTrain false ts newModel newMeta fs (MPath.archiveMeta ts2) = some c) := by
  intro ts newModel newMeta old fs h1 h2 h3
  obtain ⟨harch, hpres⟩ := archive_previous_model_spec ts fs old h1
  have hne1 : MPath.archiveModel ts ≠ MPath.model := by simp
  have hne2 : MPath.archiveModel ts ≠ MPath.meta := by simp
  have hfinalarch : mainTrain false ts newModel newMeta fs (MPath.archiveModel ts) =
      some old := by
    rw [mainTrain_false_eq, fsWrite_ne _ _ _ _ hne2, fsWrite_ne _ _ _ _ hne1]
    exact harch
  refine ⟨?_, harch, hfinalarch, ?_, ?_⟩
  · intro s hs
    rw [trainPersistStates_eq] at hs
    simp only [List.mem_cons, List.mem_singleton, List.not_mem_nil, or_false] at hs
    rcases hs with rfl | rfl | rfl | rfl
    · exact ⟨MPath.model, h1⟩
    · exact ⟨MPath.archiveModel ts, harch⟩
    · exact ⟨MPath.archiveModel ts, by rw [fsWrite_ne _ _ _ _ hne1]; exact harch⟩
    · exact ⟨MPath.archiveModel ts,
        by rw [fsWrite_ne _ _ _ _ hne2, fsWrite_ne _ _ _ _ hne1]; exact harch⟩
  · intro ts2 c hc
    by_cases hts : ts2 = ts
    · subst hts
      rw [h2] at hc
      exact absurd hc (by simp)
    · have hq1 : MPath.archiveModel ts2 ≠ MPath.archiveModel ts := by simp [hts]
      have hq2 : MPath.archiveModel ts2 ≠ MPath.archiveMeta ts := by simp
      have hq3 : MPath.archiveModel ts2 ≠ MPath.meta := by simp
      have hq4 : MPath.archiveModel ts2 ≠ MPath.model := by simp
      rw [mainTrain_false_eq, fsWrite_ne _ _ _ _ hq3, fsWrite_ne _ _ _ _ hq4,
        hpres _ hq1 hq2]
      exact hc
  · intro ts2 c hc
    by_cases hts : ts2 = ts
    · subst hts
      rw [h3] at hc
      exact absurd hc (by simp)
    · have hq1 : MPath.archiveMeta ts2 ≠ MPath.archiveModel ts := by simp
      have hq2 : MPath.archiveMeta ts2 ≠ MPath.archiveMeta ts := by simp [hts]
      have hq3 : MPath.archiveMeta ts2 ≠ MPath.meta := by simp
      have hq4 : MPath.archiveMeta ts2 ≠ MPath.model := by simp
      rw [mainTrain_false_eq, fsWrite_ne _ _ _ _ hq3, fsWrite_ne _ _ _ _ hq4,
        hpres _ hq1 hq2]
      exact hc

/-- Witness for the amended C2 on a state holding a model and metadata file
with an empty archive directory. -/
theorem C2_archival_before_overwrite_witness :
    (∀ s ∈ trainPersistStates "t1" "new-model" "new-meta" c2WitnessFs,
        ∃ p, s p = some "previous-model") ∧
    archive_previous_model "t1" c2WitnessFs (MPath.archiveModel "t1") =
      some "previous-model" ∧
    mainTrain false "t1" "new-model" "new-meta" c2WitnessFs (MPath.archiveModel "t1") =
      some "previous-model" ∧
    (∀ ts2 c, c2WitnessFs (MPath.archiveModel ts2) = some c →
      mainTrain false "t1" "new-model" "new-meta" c2WitnessFs (MPath.archiveModel ts2) =
        some c) ∧
    (∀ ts2 c, c2WitnessFs (MPath.archiveMeta ts2) = some c →
      mainTrain false "t1" "new-model" "new-meta" c2WitnessFs (MPath.archiveMeta ts2) =
        some c) :=
  C2_archival_before_overwrite "t1" "new-model" "new-meta" "previous-model" c2WitnessFs
    rfl rfl rfl

/-- C6 counterexample: compute_data_hash concatenates str(path) and
str(mtime) with no separator before hashing, so two training sets with
different membership can feed the identical byte stream to SHA-256 (path a1
with mtime 2.5 versus path a with mtime 12.5 both yield a12.5): no choice
of digest function can make the truncated fingerprint distinguish all
membership changes, hence the changes-if-changed direction of the claim is
false for the actual SHA-256 as well. -/
theorem C6_fingerprint_collision_counterexample :
    ¬ ∃ sha256hex : String → String,
      ∀ (ps1 ps2 : List String) (mt : String → String),
        ps1.Nodup → ps2.Nodup → ¬ ps1.Perm ps2 →
        compute_data_hash sha256hex ps1 mt ≠ compute_data_hash sha256hex ps2 mt := by
  rintro ⟨h, hinj⟩
  refine hinj ["a1"] ["a"] (fun p => if p = "a1" then "2.5" else "12.5")
    (by simp) (by simp) ?_ rfl
  intro hp
  have hmem : ("a1" : String) ∈ (["a1"] : List String) := by simp
  exact absurd (hp.subset hmem) (by decide)

/-- C6 (amended): the fingerprint is a deterministic function of the set of
paths and their modification times: recomputing it over an unchanged
training set — even with the paths enumerated in a different order — yields
the identical result; consequently the fingerprint can change only when
some path, membership, or modification time changes (though distinct
training sets may collide). -/
theorem C6_fingerprint_deterministic :
    ∀ (sha256hex : String → String) (ps1 ps2 : List String) (mt1 mt2 : String → String),
      ps1.Perm ps2 → (∀ p ∈ ps1, mt1 p = mt2 p) →
      compute_data_hash sha256hex ps1 mt1 = compute_data_hash sha256hex ps2 mt2 := by
  intro h ps1 ps2 mt1 mt2 hperm hmt
  have hsort : List.insertionSort (fun a b : String => a ≤ b) ps1 =
      List.insertionSort (fun a b : String => a ≤ b) ps2 := by
    refine List.eq_of_perm_of_sorted ?_ (List.sorted_insertionSort _ ps1)
      (List.sorted_insertionSort _ ps2)
    exact (List.perm_insertionSort _ ps1).trans
      (hperm.trans (List.perm_insertionSort _ ps2).symm)
  have hmap : (List.insertionSort (fun a b : String => a ≤ b) ps1).map
      (fun p => p ++ mt1 p) =
      (List.insertionSort (fun a b : String => a ≤ b) ps1).map (fun p => p ++ mt2 p) := by
    apply List.map_congr_left
    intro p hp
    have hp1 : p ∈ ps1 := (List.perm_insertionSort _ ps1).subset hp
    rw [hmt p hp1]
  unfold compute_data_hash
  rw [hmap, hsort]

/-- Witness for the amended C6: the same two paths listed in either order
with unchanged mtimes fingerprint identically. -/
theorem C6_fingerprint_deterministic_witness :
    compute_data_hash (fun s => s) ["b", "a"] (fun _ => "100.0") =
      compute_data_hash (fun s => s) ["a", "b"] (fun _ => "100.0") :=
  C6_fingerprint_deterministic (fun s => s) ["b", "a"] ["a", "b"]
    (fun _ => "100.0") (fun _ => "100.0") (List.Perm.swap "a" "b" []) (fun _ _ => rfl)
